import Mathlib

/-!
Verification development for the ExpenseFlow automated backup & retention
subsystem.

The subsystem lives in `src/server.js`, function `initializeBackupScheduling`
(lines 206–295), together with the process-level error handlers at lines 2–11.
Four cron schedules are registered (`node-cron`'s `cron.schedule`):

  * `'0 2 * * *'`  (daily backup,   02:00 UTC)
  * `'0 3 * * 0'`  (weekly backup,  Sunday 03:00 UTC)
  * `'0 4 1 * *'`  (monthly backup, 1st of month 04:00 UTC)
  * `'0 5 * * *'`  (cleanup,        05:00 UTC)

Each backup callback is `try { result = await createDatabaseBackup();
logBackup(success-entry) } catch (error) { logBackup(failed-entry with
error.message) }`; the cleanup callback is `try { result = await
applyRetentionPolicy(); console.log('... Removed:', result.removed) }
catch { console.error(...) }`.

The bodies of `backupService.createDatabaseBackup`, `backupService.logBackup`
and `backupService.applyRetentionPolicy` are not part of the sources under
verification (the service module is absent); where a claim depends on them
they are modelled from the specification, and each such definition carries a
doc comment starting with `Modelled from the spec:`.
-/

/-- Backup tiers.  The source tags entries with `type: 'daily' | 'weekly' |
'monthly'`. -/
inductive Tier where
  | daily
  | weekly
  | monthly
deriving DecidableEq

/-- Status of one backup attempt, `status: 'success' | 'failed'` in the
source's `logBackup` payloads. -/
inductive BackupStatus where
  | success
  | failed
deriving DecidableEq

/-- One record of the backup log.  Fields `tier`, `status`, `sizeBytes`,
`destination`, `error` are exactly the payload of `backupService.logBackup`
in `src/server.js`; `timestamp` is the instant the attempt started and
`reclaimed` is the retention flag, both from the spec's data model. -/
structure BackupEntry where
  tier : Tier
  timestamp : Nat
  status : BackupStatus
  sizeBytes : Option Nat
  destination : Option String
  error : Option String
  reclaimed : Bool
deriving DecidableEq

/-- Result of a successful export, `{size, destination}` as read off
`result.size` / `result.destination` in `src/server.js`. -/
structure ExportResult where
  size : Nat
  destination : String
deriving DecidableEq

/-- Outcome of running one scheduled task body: the backup log afterwards,
and `escalated = some m` exactly when an exception escaped the task body
(reaching the process-level handlers of `src/server.js` lines 2–11). -/
structure TaskOutcome where
  log : List BackupEntry
  escalated : Option String
deriving DecidableEq

/-- Entry built in the success branch of a backup callback
(`{type, size, status: 'success', destination}`). -/
def mkSuccessEntry (t : Tier) (now : Nat) (r : ExportResult) : BackupEntry :=
  ⟨t, now, BackupStatus.success, some r.size, some r.destination, none, false⟩

/-- Entry built in the catch branch of a backup callback
(`{type, status: 'failed', error: error.message}`). -/
def mkFailedEntry (t : Tier) (now : Nat) (msg : String) : BackupEntry :=
  ⟨t, now, BackupStatus.failed, none, none, some msg, false⟩

/-- The control flow of one backup cron callback from `src/server.js`
lines 211–230 (the weekly and monthly callbacks at lines 233–252 and
255–274 are textually identical up to the tier tag).  `exportRes` is the
outcome of `createDatabaseBackup()`, `app` is the `logBackup` append
capability (which per the spec can fail with `LogWriteError`).  The whole
body sits in one `try/catch`, so a throwing append in the success branch is
handled by the same catch block as an export failure; an error thrown from
inside the catch block escapes the task (and is reported in `escalated`). -/
def runBackupTaskF (t : Tier) (now : Nat) (exportRes : Except String ExportResult)
    (app : BackupEntry → List BackupEntry → Except String (List BackupEntry))
    (log : List BackupEntry) : TaskOutcome :=
  match exportRes with
  | Except.ok r =>
    match app (mkSuccessEntry t now r) log with
    | Except.ok log2 => ⟨log2, none⟩
    | Except.error m =>
      match app (mkFailedEntry t now m) log with
      | Except.ok log2 => ⟨log2, none⟩
      | Except.error m2 => ⟨log, some m2⟩
  | Except.error m =>
    match app (mkFailedEntry t now m) log with
    | Except.ok log2 => ⟨log2, none⟩
    | Except.error m2 => ⟨log, some m2⟩

/-- The append capability in the regime where the log write succeeds:
a plain append to the end of the log. -/
def pureApp (e : BackupEntry) (log : List BackupEntry) :
    Except String (List BackupEntry) :=
  Except.ok (log ++ [e])

/-- An adversarial append capability for exercising the log-write-failure
path: the durable write fails (with message "log down") exactly on success
entries, and succeeds on failed entries. -/
def appFailsOnSuccess (e : BackupEntry) (log : List BackupEntry) :
    Except String (List BackupEntry) :=
  if e.status = BackupStatus.success then Except.error "log down"
  else Except.ok (log ++ [e])

/-- An append capability whose storage is entirely down: every write fails. -/
def appAlwaysFails (e : BackupEntry) (log : List BackupEntry) :
    Except String (List BackupEntry) :=
  Except.error ("log down: " ++ (e.error.getD ""))

/-- Events of the scheduling model: a tier's trigger fires and its task
body starts, or a previously started task body finishes. -/
inductive SchedEvent where
  | fireStart (t : Tier)
  | fireEnd (t : Tier)
deriving DecidableEq

/-- Scheduler state: how many task bodies of each tier are currently
executing, and how many trigger firings have been skipped (with a skip
logged).  `src/server.js` contains no skip logic at all, so in the code's
transition function `skips` can never move. -/
structure SchedState where
  inFlight : Tier → Nat
  skips : Nat

/-- Initial scheduler state: nothing in flight, no skips logged. -/
def schedInit : SchedState :=
  ⟨fun _ => 0, 0⟩

/-- Transition function of the scheduler as written in `src/server.js`:
the callbacks handed to `cron.schedule` are started unconditionally on
every firing — there is no in-flight flag, no skip, and no skip log line
anywhere in lines 206–295. -/
def schedStep (st : SchedState) : SchedEvent → SchedState
  | SchedEvent.fireStart t =>
    ⟨fun u => if u = t then st.inFlight u + 1 else st.inFlight u, st.skips⟩
  | SchedEvent.fireEnd t =>
    ⟨fun u => if u = t then st.inFlight u - 1 else st.inFlight u, st.skips⟩

/-- Run a finite trace of scheduler events from a state. -/
def runSchedTrace (evs : List SchedEvent) (st : SchedState) : SchedState :=
  evs.foldl schedStep st

/-- Modelled from the spec: per-tier retention limits of
`backupService.applyRetentionPolicy` (the service module is not among the
sources).  "Daily keeps the most recent 7 successful artifacts; Weekly keeps
the most recent 4; Monthly keeps all (indefinite retention)". -/
def keepCount : Tier → Option Nat
  | Tier.daily => some 7
  | Tier.weekly => some 4
  | Tier.monthly => none

/-- Modelled from the spec: step 1 of the retention algorithm — all
Success, non-reclaimed entries of one tier. -/
def succNonReclaimed (t : Tier) (log : List BackupEntry) : List BackupEntry :=
  log.filter (fun e => e.tier == t && e.status == BackupStatus.success && !e.reclaimed)

/-- Ordering of entries by timestamp, most recent first. -/
def tsGE (a b : BackupEntry) : Prop :=
  b.timestamp ≤ a.timestamp

instance : DecidableRel tsGE :=
  fun _ _ => Nat.decLe _ _

instance : IsTotal BackupEntry tsGE :=
  ⟨fun a b => Nat.le_total b.timestamp a.timestamp⟩

instance : IsTrans BackupEntry tsGE :=
  ⟨fun _ _ _ h1 h2 => Nat.le_trans h2 h1⟩

/-- Entries sorted by timestamp descending (most recent first). -/
def sortByTsDesc (l : List BackupEntry) : List BackupEntry :=
  List.insertionSort tsGE l

/-- Modelled from the spec: step 2 of the retention algorithm — with
`keepCount = N`, every Success non-reclaimed entry beyond the `N` most
recent is a deletion candidate; a tier with indefinite retention produces
no candidates. -/
def retentionCandidates (t : Tier) (log : List BackupEntry) : List BackupEntry :=
  match keepCount t with
  | none => []
  | some n => (sortByTsDesc (succNonReclaimed t log)).drop n

/-- Modelled from the spec: the entries a sweep keeps for one tier — the
`N` most recent Success non-reclaimed entries (all of them for a tier with
indefinite retention). -/
def retentionKept (t : Tier) (log : List BackupEntry) : List BackupEntry :=
  match keepCount t with
  | none => sortByTsDesc (succNonReclaimed t log)
  | some n => (sortByTsDesc (succNonReclaimed t log)).take n

/-- Modelled from the spec: `markReclaimed` — flip the reclaimed flag of the
given (deleted) entry's record, leaving the record itself in the log. -/
def markReclaimedEntry (c : BackupEntry) (log : List BackupEntry) : List BackupEntry :=
  log.map (fun e => if e = c then
    ⟨e.tier, e.timestamp, e.status, e.sizeBytes, e.destination, e.error, true⟩
  else e)

/-- Result of one retention sweep: the log afterwards and the
`{removed, failures}` counts the spec requires the sweep to return. -/
structure SweepResult where
  log : List BackupEntry
  removed : Nat
  failures : Nat
deriving DecidableEq

/-- Modelled from the spec: steps 3–4 of the retention algorithm — for each
candidate request deletion of its destination via the storage-delete
capability `del`; on success mark the entry reclaimed, on failure leave the
entry untouched and record the failure in the sweep result, continuing with
the remaining candidates. -/
def processCandidates (del : String → Bool) :
    List BackupEntry → List BackupEntry → SweepResult
  | [], log => ⟨log, 0, 0⟩
  | c :: rest, log =>
    if del (c.destination.getD "") then
      let r := processCandidates del rest (markReclaimedEntry c log)
      ⟨r.log, r.removed + 1, r.failures⟩
    else
      let r := processCandidates del rest log
      ⟨r.log, r.removed, r.failures + 1⟩

/-- Modelled from the spec: `backupService.applyRetentionPolicy` — decide
the deletion candidates of every tier from the current log, then execute
the deletions, returning `{removed, failures}`. -/
def applyRetentionPolicy (del : String → Bool) (log : List BackupEntry) : SweepResult :=
  processCandidates del
    (retentionCandidates Tier.daily log ++ retentionCandidates Tier.weekly log ++
      retentionCandidates Tier.monthly log)
    log

/-- The cleanup summary line printed by `src/server.js` line 281:
`console.log('[BACKUP] Retention policy applied. Removed:', result.removed)`.
Only `result.removed` is interpolated. -/
def cleanupSummaryLine (r : SweepResult) : String :=
  "[BACKUP] Retention policy applied. Removed: " ++ toString r.removed

/-- Outcome of one firing of the cleanup callback: the log afterwards, the
line the callback printed, and whether an exception escaped the callback. -/
structure CleanupOutcome where
  log : List BackupEntry
  message : String
  escalated : Bool
deriving DecidableEq

/-- The cleanup cron callback of `src/server.js` lines 277–285, with the
retention sweep itself modelled from the spec: run `applyRetentionPolicy`
on the current log and print the summary line.  The callback appends no
`BackupEntry` of its own. -/
def cleanupTask (del : String → Bool) (log : List BackupEntry) : CleanupOutcome :=
  let r := applyRetentionPolicy del log
  ⟨r.log, cleanupSummaryLine r, false⟩

/-- The cleanup cron callback with the retention capability allowed to
throw: the `try/catch` of lines 278–284 converts a retention failure into a
`console.error` line, so no exception ever escapes the callback and the
next day's cleanup trigger is unaffected. -/
def cleanupTaskF (ret : List BackupEntry → Except String SweepResult)
    (log : List BackupEntry) : CleanupOutcome :=
  match ret log with
  | Except.ok r => ⟨r.log, cleanupSummaryLine r, false⟩
  | Except.error m => ⟨log, "[BACKUP] Retention policy failed: " ++ m, false⟩

/-- One field of a five-field cron expression, restricted to the forms the
repository uses: a wildcard `*` or a single numeric value. -/
inductive CronField where
  | any : CronField
  | exact : Nat → CronField
deriving DecidableEq

/-- A parsed five-field cron expression (minute, hour, day of month, month,
day of week), the format `node-cron` accepts for the four schedules of
`src/server.js`. -/
structure CronExpr where
  minute : CronField
  hour : CronField
  dom : CronField
  month : CronField
  dow : CronField
deriving DecidableEq

/-- Split a character list on spaces (accumulator holds the current field
reversed). -/
def splitSpacesAux : List Char → List Char → List (List Char)
  | [], acc => [acc.reverse]
  | c :: rest, acc =>
    if c = ' ' then acc.reverse :: splitSpacesAux rest []
    else splitSpacesAux rest (c :: acc)

/-- Split a character list into space-separated fields. -/
def splitSpaces (cs : List Char) : List (List Char) :=
  splitSpacesAux cs []

/-- Read a non-empty all-digit character list as a decimal number. -/
def digitsToNat : List Char → Option Nat
  | [] => none
  | cs =>
    cs.foldl
      (fun acc c =>
        match acc with
        | none => none
        | some n => if '0' ≤ c ∧ c ≤ '9' then some (n * 10 + (c.toNat - '0'.toNat)) else none)
      (some 0)

/-- Parse one cron field: `*` or a decimal number. -/
def parseCronField (cs : List Char) : Option CronField :=
  if cs = ['*'] then some CronField.any
  else (digitsToNat cs).map CronField.exact

/-- Range check for one parsed cron field. -/
def fieldInRange (f : CronField) (lo hi : Nat) : Bool :=
  match f with
  | CronField.any => true
  | CronField.exact n => decide (lo ≤ n) && decide (n ≤ hi)

/-- Modelled from the spec: `node-cron`'s registration-time validation and
parsing of a cron expression (the library is an external dependency; the
spec requires `schedule` to fail fast with `InvalidScheduleError` on a
malformed `cronExpression`).  The model covers the five-field form with
wildcard or single-value fields, the only constructs the repository's four
expressions use; anything else is malformed.  Standard field ranges:
minute 0–59, hour 0–23, day of month 1–31, month 1–12, day of week 0–7. -/
def parseCron (s : String) : Option CronExpr :=
  match (splitSpaces s.data).map parseCronField with
  | [some mf, some hf, some df, some mof, some wf] =>
    if fieldInRange mf 0 59 && fieldInRange hf 0 23 && fieldInRange df 1 31 &&
        fieldInRange mof 1 12 && fieldInRange wf 0 7 then
      some ⟨mf, hf, df, mof, wf⟩
    else none
  | _ => none

/-- A wall-clock instant as cron sees it: minute, hour, day of month,
month, day of week (all in the schedule's timezone, UTC here). -/
structure CronTime where
  minute : Nat
  hour : Nat
  dom : Nat
  month : Nat
  dow : Nat
deriving DecidableEq

/-- Does one cron field accept a value? -/
def fieldMatches : CronField → Nat → Bool
  | CronField.any, _ => true
  | CronField.exact n, v => n == v

/-- Does a parsed cron expression fire at an instant? -/
def cronExprMatches (e : CronExpr) (t : CronTime) : Bool :=
  fieldMatches e.minute t.minute && fieldMatches e.hour t.hour &&
    fieldMatches e.dom t.dom && fieldMatches e.month t.month &&
    fieldMatches e.dow t.dow

/-- Does a cron expression string fire at an instant?  A malformed
expression fires never (it is rejected at registration and no task for it
exists). -/
def cronMatches (s : String) (t : CronTime) : Bool :=
  match parseCron s with
  | some e => cronExprMatches e t
  | none => false

/-- Modelled from the spec: `Scheduler.schedule(spec, task)` — registering
a recurring task fails with `InvalidScheduleError` when the cron expression
is malformed, and on failure no task is added to the registered set. -/
def scheduleTask (expr : String) (registered : List String) :
    Except String (List String) :=
  match parseCron expr with
  | some _ => Except.ok (registered ++ [expr])
  | none => Except.error "InvalidScheduleError"

/-- One registered schedule, `{tier label, cronExpression, timezone}` as
passed to `cron.schedule` in `src/server.js`. -/
structure ScheduleSpec where
  label : String
  cronExpression : String
  timezone : String
deriving DecidableEq

/-- The four fixed schedules created by `initializeBackupScheduling`
(`src/server.js` lines 211, 233, 255, 277), in registration order, each
with `{timezone: 'UTC'}`.  The list is a closed constant: nothing in the
source mutates a schedule after creation. -/
def backupSchedules : List ScheduleSpec :=
  [⟨"daily", "0 2 * * *", "UTC"⟩,
   ⟨"weekly", "0 3 * * 0", "UTC"⟩,
   ⟨"monthly", "0 4 1 * *", "UTC"⟩,
   ⟨"cleanup", "0 5 * * *", "UTC"⟩]

/-- A concrete daily success entry with the given timestamp, used in
concrete instantiations. -/
def entryD (ts : Nat) : BackupEntry :=
  ⟨Tier.daily, ts, BackupStatus.success, some 10, some ("d" ++ toString ts), none, false⟩

/-- A concrete weekly success entry with the given timestamp. -/
def entryW (ts : Nat) : BackupEntry :=
  ⟨Tier.weekly, ts, BackupStatus.success, some 20, some ("w" ++ toString ts), none, false⟩

/-- A concrete monthly success entry with the given timestamp. -/
def entryM (ts : Nat) : BackupEntry :=
  ⟨Tier.monthly, ts, BackupStatus.success, some 30, some ("m" ++ toString ts), none, false⟩

/-- A concrete backup log: nine daily successes (timestamps 1–9), two
weekly successes, one monthly success. -/
def sampleLog : List BackupEntry :=
  [entryD 1, entryD 2, entryD 3, entryD 4, entryD 5, entryD 6, entryD 7,
   entryD 8, entryD 9, entryW 3, entryW 9, entryM 5]

theorem processCandidates_acct (del : String → Bool) (cands : List BackupEntry) :
    ∀ log : List BackupEntry,
      (processCandidates del cands log).removed + (processCandidates del cands log).failures
        = cands.length := by
  induction cands with
  | nil => intro log; rfl
  | cons c rest ih =>
    intro log
    simp only [processCandidates, List.length_cons]
    by_cases h : del (c.destination.getD "")
    · simp only [if_pos h]
      have := ih (markReclaimedEntry c log)
      omega
    · simp only [if_neg h]
      have := ih log
      omega

theorem markReclaimedEntry_length (c : BackupEntry) (log : List BackupEntry) :
    (markReclaimedEntry c log).length = log.length :=
  List.length_map log _

theorem processCandidates_log_length (del : String → Bool) (cands : List BackupEntry) :
    ∀ log : List BackupEntry,
      (processCandidates del cands log).log.length = log.length := by
  induction cands with
  | nil => intro log; rfl
  | cons c rest ih =>
    intro log
    simp only [processCandidates]
    by_cases h : del (c.destination.getD "")
    · simp only [if_pos h]
      have := ih (markReclaimedEntry c log)
      simp only [this, markReclaimedEntry_length]
    · simp only [if_neg h]
      exact ih log

theorem mem_retentionCandidates_tier {t : Tier} {c : BackupEntry} {log : List BackupEntry}
    (h : c ∈ retentionCandidates t log) : c.tier = t := by
  unfold retentionCandidates at h
  cases ht : keepCount t with
  | none => rw [ht] at h; simp at h
  | some n =>
    rw [ht] at h
    have h2 : c ∈ sortByTsDesc (succNonReclaimed t log) := List.mem_of_mem_drop h
    rw [sortByTsDesc, List.mem_insertionSort] at h2
    have h3 := (List.mem_filter.mp h2).2
    simp only [Bool.and_eq_true, beq_iff_eq] at h3
    exact h3.1.1

theorem markReclaimedEntry_filter_monthly {c : BackupEntry}
    (hc : c.tier ≠ Tier.monthly) (log : List BackupEntry) :
    (markReclaimedEntry c log).filter (fun e => e.tier == Tier.monthly)
      = log.filter (fun e => e.tier == Tier.monthly) := by
  induction log with
  | nil => rfl
  | cons e rest ih =>
    simp only [markReclaimedEntry, List.map_cons] at ih ⊢
    by_cases he : e = c
    · have het : e.tier ≠ Tier.monthly := by rw [he]; exact hc
      rw [if_pos he]
      rw [List.filter_cons, List.filter_cons]
      simp only [show ((⟨e.tier, e.timestamp, e.status, e.sizeBytes, e.destination,
        e.error, true⟩ : BackupEntry).tier == Tier.monthly) = false from
        beq_eq_false_iff_ne.mpr het,
        show (e.tier == Tier.monthly) = false from beq_eq_false_iff_ne.mpr het]
      exact ih
    · rw [if_neg he]
      rw [List.filter_cons, List.filter_cons]
      cases hm : (e.tier == Tier.monthly) <;> simp [hm, ih]

theorem processCandidates_filter_monthly (del : String → Bool)
    (cands : List BackupEntry) :
    ∀ log : List BackupEntry, (∀ c ∈ cands, c.tier ≠ Tier.monthly) →
      (processCandidates del cands log).log.filter (fun e => e.tier == Tier.monthly)
        = log.filter (fun e => e.tier == Tier.monthly) := by
  induction cands with
  | nil => intro log _; rfl
  | cons c rest ih =>
    intro log hall
    simp only [processCandidates]
    by_cases h : del (c.destination.getD "")
    · simp only [if_pos h]
      have h1 := ih (markReclaimedEntry c log) (fun x hx => hall x (List.mem_cons_of_mem c hx))
      rw [h1, markReclaimedEntry_filter_monthly (hall c (List.mem_cons_self c rest)) log]
    · simp only [if_neg h]
      exact ih log (fun x hx => hall x (List.mem_cons_of_mem c hx))

theorem sorted_drop_le_take {l : List BackupEntry} {n : Nat}
    (hs : List.Sorted tsGE l) :
    ∀ c ∈ l.drop n, ∀ k ∈ l.take n, c.timestamp ≤ k.timestamp := by
  intro c hc k hk
  have h2 : List.Pairwise tsGE (l.take n ++ l.drop n) := by
    rw [List.take_append_drop]; exact hs
  exact (List.pairwise_append.mp h2).2.2 k hk c hc

/-- C1 (counterexample): the claim asserts the scheduler tracks an in-flight
flag per tier, skips (and logs the skip of) a firing that arrives while the
same tier's prior run is executing, and that a tier's task never executes
twice concurrently.  On the trace "daily fires, daily fires again before the
first run ends", the code of `src/server.js` (which has no in-flight flag)
reaches a state with two daily runs executing concurrently and zero skips
logged, so the claim is false. -/
theorem c1_counterexample :
    (runSchedTrace [SchedEvent.fireStart Tier.daily, SchedEvent.fireStart Tier.daily]
      schedInit).inFlight Tier.daily = 2
  ∧ (runSchedTrace [SchedEvent.fireStart Tier.daily, SchedEvent.fireStart Tier.daily]
      schedInit).skips = 0
  ∧ ¬((runSchedTrace [SchedEvent.fireStart Tier.daily, SchedEvent.fireStart Tier.daily]
      schedInit).inFlight Tier.daily ≤ 1) := by
  refine ⟨rfl, rfl, ?_⟩
  intro h
  simp [runSchedTrace, schedStep, schedInit] at h

/-- C1 (amended): the scheduler tracks no in-flight flag at all — a trigger
firing starts the tier's task body unconditionally, even while the same
tier's prior run is still executing (the in-flight count always increments),
and no skip is ever logged on any trace. -/
theorem c1_no_inflight_tracking (st : SchedState) (t : Tier) :
    (schedStep st (SchedEvent.fireStart t)).inFlight t = st.inFlight t + 1
  ∧ (schedStep st (SchedEvent.fireStart t)).skips = st.skips
  ∧ ∀ evs : List SchedEvent, (runSchedTrace evs st).skips = st.skips := by
  refine ⟨by simp [schedStep], rfl, ?_⟩
  intro evs
  induction evs generalizing st with
  | nil => rfl
  | cons e rest ih =>
    show (runSchedTrace rest (schedStep st e)).skips = st.skips
    rw [ih (schedStep st e)]
    cases e <;> rfl

/-- C2: every invocation of a Daily, Weekly or Monthly trigger appends
exactly one `BackupEntry` to the backup log — exactly one on export success
and exactly one on export failure, never zero and never two. -/
theorem c2_exactly_one_entry (t : Tier) (now : Nat)
    (res : Except String ExportResult) (log : List BackupEntry) :
    (runBackupTaskF t now res pureApp log).log.length = log.length + 1 := by
  cases res <;> simp [runBackupTaskF, pureApp]

/-- C3: an export error during a scheduled run is caught at the task
boundary and converted into a Failed `BackupEntry` whose `error` field is
the raised message and which has no `sizeBytes` and no `destination`; the
exception never propagates out of the task body (`escalated = none` for
every export outcome), so later triggers still run. -/
theorem c3_export_error_caught :
    (∀ (t : Tier) (now : Nat) (msg : String) (log : List BackupEntry),
      (runBackupTaskF t now (Except.error msg) pureApp log).log
          = log ++ [mkFailedEntry t now msg]
      ∧ (mkFailedEntry t now msg).error = some msg
      ∧ (mkFailedEntry t now msg).sizeBytes = none
      ∧ (mkFailedEntry t now msg).destination = none
      ∧ (mkFailedEntry t now msg).status = BackupStatus.failed)
  ∧ (∀ (t : Tier) (now : Nat) (res : Except String ExportResult)
      (log : List BackupEntry),
      (runBackupTaskF t now res pureApp log).escalated = none) := by
  constructor
  · intro t now msg log
    exact ⟨rfl, rfl, rfl, rfl, rfl⟩
  · intro t now res log
    cases res <;> rfl

/-- C10: every entry a tier's trigger appends carries that tier's tag, in
the success branch and in the failure branch alike, and the cleanup trigger
appends no entry at all (the log length is unchanged by a cleanup firing). -/
theorem c10_entry_tier_matches_trigger :
    (∀ (t : Tier) (now : Nat) (res : Except String ExportResult)
      (log : List BackupEntry),
      ((runBackupTaskF t now res pureApp log).log.drop log.length).all
        (fun e => e.tier == t) = true)
  ∧ (∀ (del : String → Bool) (log : List BackupEntry),
      (cleanupTask del log).log.length = log.length) := by
  constructor
  · intro t now res log
    cases res with
    | ok r =>
      show ((log ++ [mkSuccessEntry t now r]).drop log.length).all
        (fun e => e.tier == t) = true
      rw [List.drop_left]
      simp [mkSuccessEntry]
    | error m =>
      show ((log ++ [mkFailedEntry t now m]).drop log.length).all
        (fun e => e.tier == t) = true
      rw [List.drop_left]
      simp [mkFailedEntry]
  · intro del log
    exact processCandidates_log_length del _ log

/-- C4: per retention sweep and tier, only entries beyond the `keepCount`
most recent successes are candidates — exactly `successfulCount - keepCount`
of them (truncated at zero), with `keepCount` 7 for Daily and 4 for Weekly;
every candidate is at least as old as every kept entry; Monthly produces no
candidates and the sweep leaves every Monthly record untouched; the total
number of deletions is bounded by the candidate counts; and a tier with
fewer successes than its `keepCount` yields zero candidates (no error: the
sweep is a total function). -/
theorem c4_retention_policy (log : List BackupEntry) (del : String → Bool) :
    (retentionCandidates Tier.daily log).length
        = (succNonReclaimed Tier.daily log).length - 7
  ∧ (retentionCandidates Tier.weekly log).length
        = (succNonReclaimed Tier.weekly log).length - 4
  ∧ retentionCandidates Tier.monthly log = []
  ∧ (applyRetentionPolicy del log).log.filter (fun e => e.tier == Tier.monthly)
        = log.filter (fun e => e.tier == Tier.monthly)
  ∧ (applyRetentionPolicy del log).removed
        ≤ (retentionCandidates Tier.daily log).length
          + (retentionCandidates Tier.weekly log).length
  ∧ (∀ t : Tier, ∀ c ∈ retentionCandidates t log, ∀ k ∈ retentionKept t log,
        c.timestamp ≤ k.timestamp)
  ∧ ((succNonReclaimed Tier.daily log).length < 7 →
        retentionCandidates Tier.daily log = [])
  ∧ ((succNonReclaimed Tier.weekly log).length < 4 →
        retentionCandidates Tier.weekly log = []) := by
  have hmono : retentionCandidates Tier.monthly log = [] := rfl
  have hlen : ∀ (t : Tier) (n : Nat), keepCount t = some n →
      (retentionCandidates t log).length = (succNonReclaimed t log).length - n := by
    intro t n ht
    unfold retentionCandidates
    rw [ht]
    rw [List.length_drop]
    unfold sortByTsDesc
    rw [List.length_insertionSort]
  refine ⟨hlen Tier.daily 7 rfl, hlen Tier.weekly 4 rfl, hmono, ?_, ?_, ?_, ?_, ?_⟩
  · apply processCandidates_filter_monthly
    intro c hc
    rcases List.mem_append.mp hc with h | h
    · rcases List.mem_append.mp h with h2 | h2
      · rw [mem_retentionCandidates_tier h2]; intro hcon; cases hcon
      · rw [mem_retentionCandidates_tier h2]; intro hcon; cases hcon
    · rw [hmono] at h; cases h
  · have hacct := processCandidates_acct del
      (retentionCandidates Tier.daily log ++ retentionCandidates Tier.weekly log ++
        retentionCandidates Tier.monthly log) log
    have hle : (applyRetentionPolicy del log).removed
        ≤ (retentionCandidates Tier.daily log ++ retentionCandidates Tier.weekly log ++
            retentionCandidates Tier.monthly log).length := by
      unfold applyRetentionPolicy
      omega
    rw [List.length_append, List.length_append, hmono] at hle
    simpa using hle
  · intro t c hc k hk
    cases ht : keepCount t with
    | none =>
      unfold retentionCandidates at hc
      rw [ht] at hc
      cases hc
    | some n =>
      unfold retentionCandidates at hc
      unfold retentionKept at hk
      rw [ht] at hc hk
      exact sorted_drop_le_take
        (List.sorted_insertionSort tsGE (succNonReclaimed t log)) c hc k hk
  · intro h
    unfold retentionCandidates
    rw [show keepCount Tier.daily = some 7 from rfl]
    apply List.drop_eq_nil_of_le
    unfold sortByTsDesc
    rw [List.length_insertionSort]
    omega
  · intro h
    unfold retentionCandidates
    rw [show keepCount Tier.weekly = some 4 from rfl]
    apply List.drop_eq_nil_of_le
    unfold sortByTsDesc
    rw [List.length_insertionSort]
    omega

/-- C4 (witness): the policy theorem instantiated on `sampleLog` (nine daily
successes with timestamps 1–9, two weekly, one monthly) with an
always-succeeding delete capability: the daily entry of timestamp 1 is a
candidate, the one of timestamp 9 is kept and is at least as recent, the
weekly tier has only 2 < 4 successes and so yields zero candidates. -/
theorem c4_witness :
    entryD 1 ∈ retentionCandidates Tier.daily sampleLog
  ∧ entryD 9 ∈ retentionKept Tier.daily sampleLog
  ∧ (entryD 1).timestamp ≤ (entryD 9).timestamp
  ∧ (succNonReclaimed Tier.weekly sampleLog).length < 4
  ∧ retentionCandidates Tier.weekly sampleLog = [] := by
  have hm : entryD 1 ∈ retentionCandidates Tier.daily sampleLog := by decide
  have hk : entryD 9 ∈ retentionKept Tier.daily sampleLog := by decide
  have hl : (succNonReclaimed Tier.weekly sampleLog).length < 4 := by decide
  exact ⟨hm, hk,
    (c4_retention_policy sampleLog (fun _ => true)).2.2.2.2.2.1 Tier.daily
      (entryD 1) hm (entryD 9) hk,
    hl,
    (c4_retention_policy sampleLog (fun _ => true)).2.2.2.2.2.2.2 hl⟩

/-- C5 (counterexample): the claim says the cleanup summary line reported to
operators contains both `removed` and `failures`.  The line printed at
`src/server.js` line 281 interpolates only `result.removed`: two sweep
results that differ in `failures` (one failure versus none) produce the
identical summary line, so the line cannot contain the failures count. -/
theorem c5_counterexample :
    cleanupSummaryLine ⟨[], 2, 1⟩ = cleanupSummaryLine ⟨[], 2, 0⟩
  ∧ (⟨[], 2, 1⟩ : SweepResult).failures ≠ (⟨[], 2, 0⟩ : SweepResult).failures :=
  ⟨rfl, by decide⟩

/-- C5 (amended): the retention sweep returns `{removed, failures}`, every
candidate is accounted for in exactly one of the two counters (a deletion
failure is recorded in `failures` rather than thrown and never aborts the
remaining candidates), but the cleanup summary line contains only the
`removed` count, not `failures`. -/
theorem c5_sweep_result (del : String → Bool) (log : List BackupEntry) :
    (applyRetentionPolicy del log).removed + (applyRetentionPolicy del log).failures
        = (retentionCandidates Tier.daily log).length
          + (retentionCandidates Tier.weekly log).length
          + (retentionCandidates Tier.monthly log).length
  ∧ cleanupSummaryLine (applyRetentionPolicy del log)
        = "[BACKUP] Retention policy applied. Removed: "
          ++ toString (applyRetentionPolicy del log).removed := by
  constructor
  · have hacct := processCandidates_acct del
      (retentionCandidates Tier.daily log ++ retentionCandidates Tier.weekly log ++
        retentionCandidates Tier.monthly log) log
    rw [List.length_append, List.length_append] at hacct
    unfold applyRetentionPolicy
    omega
  · rfl

/-- C6 (counterexample): the claim says the cleanup task, on each firing,
first appends its own entry and then invokes the Retention Engine.  On a
one-entry log the cleanup callback of `src/server.js` lines 277–285 leaves
the log with exactly that one entry — it appends nothing. -/
theorem c6_counterexample :
    (cleanupTask (fun _ => true) [mkSuccessEntry Tier.daily 1 ⟨10, "d1"⟩]).log
      = [mkSuccessEntry Tier.daily 1 ⟨10, "d1"⟩]
  ∧ (cleanupTask (fun _ => true) [mkSuccessEntry Tier.daily 1 ⟨10, "d1"⟩]).log.length
      = 1 := by
  exact ⟨by decide, by decide⟩

/-- C6 (amended): the cleanup task appends no entry of its own; on each
firing it invokes the Retention Engine on the current backup log, prints the
summary line with the removed count, never grows the log, and a retention
failure is caught inside the callback (`escalated = false` even when the
retention capability throws), leaving the schedule intact for the next
day's cleanup trigger. -/
theorem c6_cleanup_task (del : String → Bool)
    (ret : List BackupEntry → Except String SweepResult) (log : List BackupEntry) :
    (cleanupTask del log).log = (applyRetentionPolicy del log).log
  ∧ (cleanupTask del log).message = cleanupSummaryLine (applyRetentionPolicy del log)
  ∧ (cleanupTask del log).log.length = log.length
  ∧ (cleanupTask del log).escalated = false
  ∧ (cleanupTaskF ret log).escalated = false := by
  refine ⟨rfl, rfl, processCandidates_log_length del _ log, rfl, ?_⟩
  unfold cleanupTaskF
  cases ret log <;> rfl

/-- C7 (counterexample): the claim says a backup-log write failure is
escalated to process-level error reporting rather than being self-logged.
With an append capability that fails on the success entry but accepts a
subsequent write, the daily task of `src/server.js` lines 211–230 catches
the log-write failure in its own catch block and self-logs it as a Failed
`BackupEntry` carrying the log-write error message; nothing escapes to the
process-level handlers (`escalated = none`). -/
theorem c7_counterexample :
    (runBackupTaskF Tier.daily 0 (Except.ok ⟨5, "d"⟩) appFailsOnSuccess []).escalated
      = none
  ∧ (runBackupTaskF Tier.daily 0 (Except.ok ⟨5, "d"⟩) appFailsOnSuccess []).log
      = [mkFailedEntry Tier.daily 0 "log down"]
  ∧ (mkFailedEntry Tier.daily 0 "log down").error = some "log down" :=
  ⟨rfl, rfl, rfl⟩

/-- C7 (amended): when the log write for the success entry fails, the task's
own catch block converts the failure into a Failed `BackupEntry` and
attempts to self-log it; nothing is escalated when that second write
succeeds.  Only when the second write also fails does the error escape the
task body and reach the process-level handlers of `src/server.js`
lines 2–11. -/
theorem c7_logwrite_selflogged (t : Tier) (now : Nat) (r : ExportResult)
    (log : List BackupEntry)
    (app : BackupEntry → List BackupEntry → Except String (List BackupEntry))
    (m : String) (h1 : app (mkSuccessEntry t now r) log = Except.error m) :
    (∀ log2, app (mkFailedEntry t now m) log = Except.ok log2 →
      runBackupTaskF t now (Except.ok r) app log = ⟨log2, none⟩)
  ∧ (∀ m2, app (mkFailedEntry t now m) log = Except.error m2 →
      runBackupTaskF t now (Except.ok r) app log = ⟨log, some m2⟩) := by
  constructor
  · intro log2 h2
    simp only [runBackupTaskF, h1, h2]
  · intro m2 h2
    simp only [runBackupTaskF, h1, h2]

/-- C7 (witness): the amended theorem applied to the concrete failing append
capability `appFailsOnSuccess` on the empty log: the hypothesis (the success
write fails with "log down") holds by computation, the second write
succeeds, and the task ends with the self-logged Failed entry and no
escalation. -/
theorem c7_witness :
    appFailsOnSuccess (mkSuccessEntry Tier.daily 0 ⟨5, "d"⟩) [] = Except.error "log down"
  ∧ runBackupTaskF Tier.daily 0 (Except.ok ⟨5, "d"⟩) appFailsOnSuccess []
      = ⟨[mkFailedEntry Tier.daily 0 "log down"], none⟩ :=
  ⟨rfl,
    (c7_logwrite_selflogged Tier.daily 0 ⟨5, "d"⟩ [] appFailsOnSuccess "log down" rfl).1
      [mkFailedEntry Tier.daily 0 "log down"] rfl⟩

/-- C8: registering a schedule with a malformed cron expression fails at
registration time with `InvalidScheduleError`, the registered set is left
unchanged (the error carries no new registration), and no trigger for the
malformed expression can ever fire — a malformed spec is rejected up front,
not silently tolerated after startup. -/
theorem c8_malformed_schedule_rejected (expr : String) (registered : List String)
    (h : parseCron expr = none) :
    scheduleTask expr registered = Except.error "InvalidScheduleError"
  ∧ ∀ tm : CronTime, cronMatches expr tm = false := by
  constructor
  · unfold scheduleTask
    rw [h]
  · intro tm
    unfold cronMatches
    rw [h]

/-- C8 (witness): the rejection theorem applied to the concrete malformed
expression "not-a-cron" with an empty registered set; its hypothesis (the
expression fails to parse) is discharged by computation. -/
theorem c8_witness :
    parseCron "not-a-cron" = none
  ∧ scheduleTask "not-a-cron" [] = Except.error "InvalidScheduleError"
  ∧ cronMatches "not-a-cron" ⟨0, 2, 1, 1, 0⟩ = false := by
  have h : parseCron "not-a-cron" = none := by decide
  exact ⟨h, (c8_malformed_schedule_rejected "not-a-cron" [] h).1,
    (c8_malformed_schedule_rejected "not-a-cron" [] h).2 ⟨0, 2, 1, 1, 0⟩⟩

/-- C9: exactly four fixed schedules are created at process start — daily
backup at 02:00 UTC, weekly backup Sunday 03:00 UTC, monthly backup on the
1st of the month at 04:00 UTC, cleanup daily at 05:00 UTC — every spec
carries the UTC timezone, all four cron expressions are well-formed, and
each expression fires exactly at its stated wall-clock instants. -/
theorem c9_four_fixed_schedules :
    backupSchedules.length = 4
  ∧ backupSchedules.all (fun s => s.timezone == "UTC") = true
  ∧ backupSchedules.map ScheduleSpec.cronExpression
      = ["0 2 * * *", "0 3 * * 0", "0 4 1 * *", "0 5 * * *"]
  ∧ backupSchedules.all (fun s => (parseCron s.cronExpression).isSome) = true
  ∧ (∀ tm : CronTime, cronMatches "0 2 * * *" tm = true ↔
      tm.minute = 0 ∧ tm.hour = 2)
  ∧ (∀ tm : CronTime, cronMatches "0 3 * * 0" tm = true ↔
      tm.minute = 0 ∧ tm.hour = 3 ∧ tm.dow = 0)
  ∧ (∀ tm : CronTime, cronMatches "0 4 1 * *" tm = true ↔
      tm.minute = 0 ∧ tm.hour = 4 ∧ tm.dom = 1)
  ∧ (∀ tm : CronTime, cronMatches "0 5 * * *" tm = true ↔
      tm.minute = 0 ∧ tm.hour = 5) := by
  have h2 : parseCron "0 2 * * *" = some ⟨CronField.exact 0, CronField.exact 2,
      CronField.any, CronField.any, CronField.any⟩ := by decide
  have h3 : parseCron "0 3 * * 0" = some ⟨CronField.exact 0, CronField.exact 3,
      CronField.any, CronField.any, CronField.exact 0⟩ := by decide
  have h4 : parseCron "0 4 1 * *" = some ⟨CronField.exact 0, CronField.exact 4,
      CronField.exact 1, CronField.any, CronField.any⟩ := by decide
  have h5 : parseCron "0 5 * * *" = some ⟨CronField.exact 0, CronField.exact 5,
      CronField.any, CronField.any, CronField.any⟩ := by decide
  refine ⟨rfl, by decide, rfl, by decide, ?_, ?_, ?_, ?_⟩
  · intro tm
    simp only [cronMatches, h2, cronExprMatches, fieldMatches, Bool.and_eq_true,
      beq_iff_eq, and_true, true_and]
    omega
  · intro tm
    simp only [cronMatches, h3, cronExprMatches, fieldMatches, Bool.and_eq_true,
      beq_iff_eq, and_true, true_and]
    omega
  · intro tm
    simp only [cronMatches, h4, cronExprMatches, fieldMatches, Bool.and_eq_true,
      beq_iff_eq, and_true, true_and]
    omega
  · intro tm
    simp only [cronMatches, h5, cronExprMatches, fieldMatches, Bool.and_eq_true,
      beq_iff_eq, and_true, true_and]
    omega

/-- C9 (witness): the schedule characterizations instantiated at concrete
wall-clock instants: each of the four expressions fires at its stated
time. -/
theorem c9_witness :
    cronMatches "0 2 * * *" ⟨0, 2, 15, 6, 3⟩ = true
  ∧ cronMatches "0 3 * * 0" ⟨0, 3, 15, 6, 0⟩ = true
  ∧ cronMatches "0 4 1 * *" ⟨0, 4, 1, 6, 3⟩ = true
  ∧ cronMatches "0 5 * * *" ⟨0, 5, 15, 6, 3⟩ = true :=
  ⟨(c9_four_fixed_schedules.2.2.2.2.1 ⟨0, 2, 15, 6, 3⟩).mpr ⟨rfl, rfl⟩,
   (c9_four_fixed_schedules.2.2.2.2.2.1 ⟨0, 3, 15, 6, 0⟩).mpr ⟨rfl, rfl, rfl⟩,
   (c9_four_fixed_schedules.2.2.2.2.2.2.1 ⟨0, 4, 1, 6, 3⟩).mpr ⟨rfl, rfl, rfl⟩,
   (c9_four_fixed_schedules.2.2.2.2.2.2.2 ⟨0, 5, 15, 6, 3⟩).mpr ⟨rfl, rfl⟩⟩
